import Mathlib

/-!
Verification of the somethink indexing-and-retrieval core.

This file gives a shallow embedding, in Lean 4, of the parts of the
repository that the specification's claims are about:

* `src/data/database.py` — the Store: the `files` / `topics` / `metadata`
  tables plus the `files_fts` full-text shadow index, and the operations
  `insert_file`, `get_file_by_path`, `get_file_by_id`,
  `search_files_by_keyword`, `update_file_topic`, `delete_file`,
  `delete_file_by_path`, `clear_all_data`.
* `src/engine/searcher.py` — the Searcher: `search`, `_keyword_search`,
  `_semantic_search`, `_combine_results`.
* `src/somethink/engine/indexer.py` — `Indexer._index_file` and
  `Indexer.update_single_file`.

Modelling conventions:

* Python floats are modelled as rationals (`ℚ`); machine rounding plays no
  role in any claim considered here.
* Python strings are modelled as `String`, with the Python primitives
  (`str.lower`, `in`, `str.count`, `str.split`, `str.strip`) re-defined
  over `List Char` below so all definitions are executable.
* SQLite is modelled explicitly: a `DB` value holds the table contents, and
  each method executes its SQL statements against that state.  Two facts of
  the SQLite engine itself matter and are modelled from its documented
  behaviour: (a) foreign-key enforcement is OFF by default, and
  `_init_database` never issues `PRAGMA foreign_keys = ON`, so the
  `ON DELETE CASCADE` declared on `metadata` never fires — accordingly
  `deleteFile` below leaves `metadata` untouched; (b) the FTS5 `MATCH`
  operator parses its right-hand side as a query expression and raises a
  syntax error on malformed input such as an unbalanced double quote —
  modelled by `fts5QueryValid`.
* The FTS5 engine's choice of which rows match a keyword and with what
  relevance rank is external to the repository; it enters the model as an
  explicit `engine : List (Nat × ℚ)` argument (matched rowids with their
  ranks, in the engine-delivered order).  `ORDER BY rank` is modelled as a
  stable sort on that list: the SQL names no secondary sort key, so
  equal-rank rows stay in whatever order the engine produced.
* The topic model's `find_similar_documents` is an external provider; it is
  modelled as a function value that may raise (`Except`).
-/

namespace Somethink

/-! ### Python string primitives, over `List Char` -/

/-- Python `str.lower()` applied to a string, as a character list (ASCII case
folding, which covers every input used by the development). -/
def pyLower (s : String) : List Char :=
  s.toList.map Char.toLower

/-- The whitespace class of Python's `str.split()` / `str.strip()`
(ASCII fragment). -/
def pyIsSpace (c : Char) : Bool :=
  c = ' ' || c = '\t' || c = '\n' || c = '\r' || c = '\x0b' || c = '\x0c'

/-- `leadsWith needle hay` holds when `needle` is an initial segment of
`hay`. -/
def leadsWith : List Char → List Char → Bool
  | [], _ => true
  | _ :: _, [] => false
  | a :: as, b :: bs => a = b && leadsWith as bs

/-- Python's substring test `needle in hay`. -/
def containsSub (needle : List Char) : List Char → Bool
  | [] => needle.isEmpty
  | c :: t => leadsWith needle (c :: t) || containsSub needle t

/-- Python `hay.count(needle)`: non-overlapping occurrences, scanning left to
right and skipping the length of `needle` after each match.  For an empty
`needle`, Python counts every gap, i.e. `len(hay) + 1`. -/
def countNonOverlap (needle : List Char) (hay : List Char) : Nat :=
  match hay with
  | [] => if needle.isEmpty then 1 else 0
  | c :: t =>
    if needle.isEmpty then 1 + countNonOverlap needle t
    else if leadsWith needle (c :: t) then
      1 + countNonOverlap needle (t.drop (needle.length - 1))
    else countNonOverlap needle t
termination_by hay.length
decreasing_by
  all_goals simp [List.length_drop]
  all_goals omega

/-- Helper for `pyWordCount`: counts maximal runs of non-whitespace
characters; the flag records whether the scan is inside a run. -/
def wordCountAux : Bool → List Char → Nat
  | _, [] => 0
  | inWord, c :: t =>
    if pyIsSpace c then wordCountAux false t
    else (if inWord then 0 else 1) + wordCountAux true t

/-- Python `len(s.split())`: the number of whitespace-separated words. -/
def pyWordCount (s : String) : Nat :=
  wordCountAux false s.toList

/-- Python `s.strip()`, as a character list. -/
def pyStrip (s : String) : List Char :=
  ((s.toList.dropWhile pyIsSpace).reverse.dropWhile pyIsSpace).reverse

/-! ### The Store data model (`src/data/database.py`) -/

/-- One row of the `files` table (`_create_tables`).  `indexed_time` is a
database-assigned default that no claim depends on, so it is omitted. -/
structure FileRec where
  id : Nat
  path : String
  filename : String
  extension : String
  fileType : String
  size : Int
  modifiedTime : Int
  createdTime : Int
  contentText : String
  topicId : Option Int
  embeddingVector : Option String
deriving DecidableEq

/-- One row of the `files_fts` full-text shadow index
(`content_rowid = 'id'`). -/
structure FtsRow where
  rowid : Nat
  filename : String
  contentText : String
deriving DecidableEq

/-- One row of the `metadata` table (its own autoincrement id is inert —
nothing in the source ever reads it). -/
structure MetaRow where
  fileId : Nat
  key : String
  value : String
deriving DecidableEq

/-- The database state: table contents plus the autoincrement counter for
`files.id`. -/
structure DB where
  files : List FileRec
  fts : List FtsRow
  metadata : List MetaRow
  nextId : Nat
deriving DecidableEq

/-- The dictionary argument of `Database.insert_file` (the fields the source
reads out of `file_info`). -/
structure FileInfo where
  path : String
  filename : String
  extension : String
  fileType : String
  size : Int
  modifiedTime : Int
  createdTime : Int
  contentText : String
deriving DecidableEq

/-- `Database.get_file_by_path`: `SELECT * FROM files WHERE path = ?`. -/
def getFileByPath (db : DB) (path : String) : Option FileRec :=
  db.files.find? fun f => f.path = path

/-- `Database.get_file_by_id`: `SELECT * FROM files WHERE id = ?`. -/
def getFileById (db : DB) (fileId : Nat) : Option FileRec :=
  db.files.find? fun f => f.id = fileId

/-- `Database.insert_file`: looks up an existing row by path; if present,
updates its mutable fields in place (the `UPDATE ... WHERE id = ?` names
neither `path` nor `topic_id` nor `embedding_vector`) and replaces its FTS
entry; otherwise inserts a fresh row under the next autoincrement id.
Returns the new state and the row id.  The source performs no validation of
`path`: any string, including the empty string, is written as-is. -/
def insertFile (db : DB) (info : FileInfo) : DB × Nat :=
  match db.files.find? (fun f => f.path = info.path) with
  | some existing =>
    let fileId := existing.id
    let files' := db.files.map fun f =>
      if f.id = fileId then
        { f with
          filename := info.filename
          extension := info.extension
          fileType := info.fileType
          size := info.size
          modifiedTime := info.modifiedTime
          createdTime := info.createdTime
          contentText := info.contentText }
      else f
    let fts' := (db.fts.filter fun e => ¬ e.rowid = fileId) ++
      [⟨fileId, info.filename, info.contentText⟩]
    ({ db with files := files', fts := fts' }, fileId)
  | none =>
    let fileId := db.nextId
    let newRec : FileRec :=
      ⟨fileId, info.path, info.filename, info.extension, info.fileType,
        info.size, info.modifiedTime, info.createdTime, info.contentText,
        none, none⟩
    ({ db with
        files := db.files ++ [newRec]
        fts := db.fts ++ [⟨fileId, info.filename, info.contentText⟩]
        nextId := fileId + 1 }, fileId)

/-- `Database.update_file_topic`:
`UPDATE files SET topic_id = ?, embedding_vector = ? WHERE id = ?`. -/
def updateFileTopic (db : DB) (fileId : Nat) (topicId : Int)
    (embedding : Option String) : DB :=
  { db with
      files := db.files.map fun f =>
        if f.id = fileId then
          { f with topicId := some topicId, embeddingVector := embedding }
        else f }

/-- `Database.delete_file`: `DELETE FROM files WHERE id = ?` and
`DELETE FROM files_fts WHERE rowid = ?`.  The connection never enables
foreign-key enforcement, so the `ON DELETE CASCADE` declared on
`metadata.file_id` does not fire: `metadata` is left unchanged. -/
def deleteFile (db : DB) (fileId : Nat) : DB :=
  { db with
      files := db.files.filter fun f => ¬ f.id = fileId
      fts := db.fts.filter fun e => ¬ e.rowid = fileId }

/-- `Database.delete_file_by_path`: fetch by path, then delete by id — a
missing path is a silent no-op. -/
def deleteFileByPath (db : DB) (path : String) : DB :=
  match getFileByPath db path with
  | some f => deleteFile db f.id
  | none => db

/-- `Database.clear_all_data`: empties all four stores. -/
def clearAllData (db : DB) : DB :=
  { db with files := [], fts := [], metadata := [] }

/-- No two file records share a path (spec §8, "Path uniqueness"). -/
def pathsUnique (db : DB) : Prop :=
  (db.files.map FileRec.path).Nodup

/-! ### Full-text search (`Database.search_files_by_keyword`) -/

/-- Model of the external SQLite FTS5 `MATCH` query parser, restricted to the
fragment the claims exercise: a double quote opens a phrase that must be
closed by a matching double quote, so a query with an odd number of `"`
characters is rejected with a syntax error. -/
def fts5QueryValid (s : String) : Bool :=
  s.toList.count '"' % 2 = 0

/-- Rank-ascending order on the engine's `(rowid, rank)` pairs — FTS5's
`rank` is more relevant when smaller, so `ORDER BY rank` sorts ascending. -/
def rankAsc (a b : Nat × ℚ) : Prop := a.2 ≤ b.2

instance : DecidableRel rankAsc :=
  fun a b => inferInstanceAs (Decidable (a.2 ≤ b.2))

instance : IsTotal (Nat × ℚ) rankAsc := ⟨fun a b => le_total a.2 b.2⟩

instance : IsTrans (Nat × ℚ) rankAsc := ⟨fun _ _ _ => le_trans⟩

/-- `Database.search_files_by_keyword`: runs
`SELECT f.* FROM files f JOIN files_fts fts ON f.id = fts.rowid
WHERE files_fts MATCH ? ORDER BY rank LIMIT ?` with the keyword passed
verbatim as the `MATCH` expression.  The engine's matched
`(rowid, rank)` pairs, in the order the engine delivers them, are the
`engine` argument; the `ORDER BY rank` names no secondary key, so
equal-rank rows keep the engine-delivered order (stable sort).  A keyword
the FTS5 parser rejects raises an `OperationalError`. -/
def searchFilesByKeyword (db : DB) (engine : List (Nat × ℚ))
    (keyword : String) (limit : Nat) : Except String (List FileRec) :=
  if fts5QueryValid keyword then
    .ok (((List.insertionSort rankAsc engine).filterMap
      fun e => getFileById db e.1).take limit)
  else
    .error "fts5: syntax error"

/-! ### The Searcher (`src/engine/searcher.py`) -/

/-- The topic model's `find_similar_documents(query, top_n)` — an external
provider returning `(file_id, similarity)` pairs, which may raise. -/
abbrev Provider := String → Nat → Except String (List (Nat × ℚ))

/-- The per-candidate score of `Searcher._keyword_search`: 0.5 if the
lowered query occurs in the lowered filename, plus — when the content is
non-empty — `min(count / max(len(content.split()), 1) * 100, 0.5)` where
`count` is the lowered query's occurrence count in the lowered content. -/
def keywordScore (query : String) (f : FileRec) : ℚ :=
  let base : ℚ :=
    if containsSub (pyLower query) (pyLower f.filename) then 1/2 else 0
  if f.contentText.toList.isEmpty then base
  else
    let count := countNonOverlap (pyLower query) (pyLower f.contentText)
    base +
      min ((count : ℚ) / ((max (pyWordCount f.contentText) 1 : ℕ) : ℚ) * 100)
        (1/2)

/-- Descending-score order used by the Python `list.sort(key=..., reverse=True)`
calls; Python's sort is stable, so equal scores keep list order. -/
def scoreDesc (a b : FileRec × ℚ) : Prop := b.2 ≤ a.2

instance : DecidableRel scoreDesc :=
  fun a b => inferInstanceAs (Decidable (b.2 ≤ a.2))

instance : IsTotal (FileRec × ℚ) scoreDesc := ⟨fun a b => le_total b.2 a.2⟩

instance : IsTrans (FileRec × ℚ) scoreDesc :=
  ⟨fun _ _ _ h1 h2 => le_trans h2 h1⟩

/-- `Searcher._keyword_search`: full-text lookup, per-candidate scoring, then
a stable descending sort by score. -/
def keywordSearch (db : DB) (engine : List (Nat × ℚ)) (query : String)
    (limit : Nat) : Except String (List (FileRec × ℚ)) :=
  (searchFilesByKeyword db engine query limit).map fun rows =>
    List.insertionSort scoreDesc (rows.map fun f => (f, keywordScore query f))

/-- `Searcher._semantic_search`: asks the provider for similar documents and
resolves each returned file id against the Store; any exception from the
provider is caught and turned into the empty result list. -/
def semanticSearch (db : DB) (provider : Provider) (query : String)
    (limit : Nat) : List (FileRec × ℚ) :=
  match provider query limit with
  | .error _ => []
  | .ok docs => docs.filterMap fun d => (getFileById db d.1).map fun f => (f, d.2)

/-- One value of the `combined` dictionary of `Searcher._combine_results`. -/
structure CEntry where
  file : FileRec
  kwScore : ℚ
  semScore : ℚ

/-- Dictionary update: rewrites the (unique) entry stored under `key`. -/
def updateEntry (key : String) (g : CEntry → CEntry) :
    List (String × CEntry) → List (String × CEntry)
  | [] => []
  | p :: rest =>
    if p.1 = key then (p.1, g p.2) :: rest else p :: updateEntry key g rest

/-- Python `path in combined`. -/
def hasKey (key : String) (acc : List (String × CEntry)) : Bool :=
  acc.any fun p => p.1 = key

/-- The first loop of `_combine_results`: create the entry (file, 0, 0) if the
path is new, then assign its `keyword_score`. -/
def addKeyword (acc : List (String × CEntry)) (fs : FileRec × ℚ) :
    List (String × CEntry) :=
  let acc1 :=
    if hasKey fs.1.path acc then acc else acc ++ [(fs.1.path, ⟨fs.1, 0, 0⟩)]
  updateEntry fs.1.path (fun e => { e with kwScore := fs.2 }) acc1

/-- The second loop of `_combine_results`, assigning `semantic_score`. -/
def addSemantic (acc : List (String × CEntry)) (fs : FileRec × ℚ) :
    List (String × CEntry) :=
  let acc1 :=
    if hasKey fs.1.path acc then acc else acc ++ [(fs.1.path, ⟨fs.1, 0, 0⟩)]
  updateEntry fs.1.path (fun e => { e with semScore := fs.2 }) acc1

/-- `Searcher._combine_results`: union the two candidate lists by path in a
dictionary (insertion-ordered), upper-clamp each signal with `min(·, 1.0)`,
take the weighted sum (the metadata weight multiplies a hard-coded 0), and
stable-sort descending by the combined score. -/
def combineResults (keywordResults semanticResults : List (FileRec × ℚ))
    (keywordWeight semanticWeight metadataWeight : ℚ) : List (FileRec × ℚ) :=
  let combined :=
    semanticResults.foldl addSemantic (keywordResults.foldl addKeyword [])
  let finalResults := combined.map fun p =>
    (p.2.file,
      keywordWeight * min p.2.kwScore 1 + semanticWeight * min p.2.semScore 1 +
        metadataWeight * 0)
  List.insertionSort scoreDesc finalResults

/-- `Searcher.search`: empty-after-strip queries short-circuit to `[]`;
otherwise the lexical candidates (up to `2 × max_results`) are fetched, the
semantic candidates are fetched only when `use_semantic` is set and a topic
model is attached, the two are fused with weights 0.4 / (0.5 when
`use_semantic` else 0) / 0.1, and the fused list is truncated to
`max_results`. -/
def search (db : DB) (engine : List (Nat × ℚ)) (topicModel : Option Provider)
    (query : String) (maxResults : Nat) (useSemantic : Bool) :
    Except String (List (FileRec × ℚ)) :=
  if (pyStrip query).isEmpty then .ok []
  else
    match keywordSearch db engine query (maxResults * 2) with
    | .error e => .error e
    | .ok keywordResults =>
      let semanticResults :=
        if useSemantic then
          match topicModel with
          | some provider => semanticSearch db provider query (maxResults * 2)
          | none => []
        else []
      let combined := combineResults keywordResults semanticResults
        (0.4 : ℚ) (if useSemantic then (0.5 : ℚ) else 0) (0.1 : ℚ)
      .ok (combined.take maxResults)

/-- The rank the engine assigned to a rowid (first occurrence; 0 if the rowid
was not matched).  Used to state ordering properties of
`searchFilesByKeyword`. -/
def rankOf (engine : List (Nat × ℚ)) (rid : Nat) : ℚ :=
  ((engine.find? fun e => e.1 = rid).map Prod.snd).getD 0

/-! ### The Indexer (`src/somethink/engine/indexer.py`) -/

/-- `Indexer._index_file`: if a record already exists for the candidate's
path and its stored modified-time is greater or equal, return immediately;
otherwise call the extraction collaborator and upsert.  The second and third
components count extraction calls and Store writes performed. -/
def indexFile (db : DB) (extract : String → String) (info : FileInfo) :
    DB × Nat × Nat :=
  match getFileByPath db info.path with
  | some existing =>
    if existing.modifiedTime ≥ info.modifiedTime then (db, 0, 0)
    else
      ((insertFile db { info with contentText := extract info.path }).1, 1, 1)
  | none =>
    ((insertFile db { info with contentText := extract info.path }).1, 1, 1)

/-- `Indexer.update_single_file`: a path that no longer exists on disk is
removed from the Store; an existing, supported path goes through
`_index_file`; an existing, unsupported path is ignored. -/
def updateSingleFile (db : DB) (onDisk supported : Bool)
    (extract : String → String) (info : FileInfo) : DB × Nat × Nat :=
  if ¬ onDisk then
    (deleteFileByPath db info.path, 0,
      if (getFileByPath db info.path).isSome then 1 else 0)
  else if supported then indexFile db extract info
  else (db, 0, 0)

/-! ### Concrete fixtures used by witnesses and counterexamples -/

/-- A stored document record, id 1. -/
def fDoc : FileRec :=
  ⟨1, "/a/doc.txt", "doc.txt", ".txt", "document", 10, 5, 1, "alpha beta beta",
    none, none⟩

/-- A one-record database holding `fDoc` with its shadow-index entry. -/
def dbOne : DB :=
  ⟨[fDoc], [⟨1, "doc.txt", "alpha beta beta"⟩], [], 2⟩

/-- Record id 1 with filename `xa`, empty content. -/
def fXa : FileRec := ⟨1, "/a", "xa", "", "document", 0, 0, 0, "", none, none⟩

/-- Record id 2 with filename `xb`, empty content. -/
def fXb : FileRec := ⟨2, "/b", "xb", "", "document", 0, 0, 0, "", none, none⟩

/-- A two-record database holding `fXa` and `fXb`. -/
def dbTwo : DB := ⟨[fXa, fXb], [⟨1, "xa", ""⟩, ⟨2, "xb", ""⟩], [], 3⟩

/-- An engine answer in which both stored records match with equal rank and
the engine delivers the higher rowid first. -/
def engineTie : List (Nat × ℚ) := [(2, 0), (1, 0)]

/-- `dbOne` extended with one metadata row referencing file 1. -/
def dbMeta : DB :=
  ⟨[fDoc], [⟨1, "doc.txt", "alpha beta beta"⟩], [⟨1, "k", "v"⟩], 2⟩

/-- A provider whose only answer is file 1 with cosine similarity −1 (cosine
similarity of opposite embeddings; `find_similar_documents` imposes no lower
bound on the value it returns). -/
def provNeg : Provider := fun _ _ => .ok [(1, -1)]

/-- A provider that raises on every call. -/
def provFail : Provider := fun _ _ => .error "model not loaded"

/-- An upsert argument with an empty path. -/
def infoEmptyPath : FileInfo := ⟨"", "f.txt", ".txt", "document", 0, 0, 0, ""⟩

/-- A re-scan candidate for `fDoc`'s path whose modified-time 3 is older than
the stored modified-time 5. -/
def infoDocOld : FileInfo :=
  ⟨"/a/doc.txt", "doc.txt", ".txt", "document", 10, 3, 1, ""⟩

/-! ### Helper lemmas -/

/-- Concrete run of `search` on `dbTwo` with the tied engine answer: both
records score 0.4 × 0.5 = 1/5 and the output keeps the engine's order,
higher id first. -/
lemma eval_search_tie : search dbTwo engineTie none "x" 10 false =
    .ok [(fXb, 1/5), (fXa, 1/5)] := by
  have hstrip : (pyStrip "x").isEmpty = false := by decide
  have hrows : searchFilesByKeyword dbTwo engineTie "x" (10 * 2) =
      .ok [fXb, fXa] := rfl
  have hsb : keywordScore "x" fXb = 1/2 := by
    have : containsSub (pyLower "x") (pyLower "xb") = true := by decide
    simp [keywordScore, fXb, this]
  have hsa : keywordScore "x" fXa = 1/2 := by
    have : containsSub (pyLower "x") (pyLower "xa") = true := by decide
    simp [keywordScore, fXa, this]
  have hks : keywordSearch dbTwo engineTie "x" (10 * 2) =
      .ok [(fXb, 1/2), (fXa, 1/2)] := by
    rw [keywordSearch, hrows]
    simp only [Except.map, List.map, hsa, hsb]
    norm_num [List.insertionSort, List.orderedInsert, scoreDesc]
  rw [search, if_neg (by simp [hstrip]), hks]
  simp only
  norm_num [combineResults, addKeyword, hasKey, updateEntry, List.foldl,
    List.any, fXa, fXb, List.map, List.insertionSort, List.orderedInsert,
    scoreDesc, List.take]

/-! ### Claim C4 — upsert with an empty path -/

/-- C4, as stated, is false: `insert_file` performs no path validation
whatsoever (no `ValidationError` type exists anywhere in the repository),
so upserting with an empty path inserts a normal record whose path is the
empty string instead of raising. -/
theorem C4_counterexample :
    (insertFile ⟨[], [], [], 1⟩ infoEmptyPath).1.files.length = 1 ∧
      (insertFile ⟨[], [], [], 1⟩ infoEmptyPath).1.files.map FileRec.path =
        [""] := by
  decide

/-- C4 amended: `insert_file` accepts every path, including the empty or
malformed ones — after the call the store always holds a record under the
given path (no error is ever raised). -/
theorem C4_no_validation (db : DB) (info : FileInfo) :
    ∃ f ∈ (insertFile db info).1.files, f.path = info.path := by
  unfold insertFile
  cases hf : db.files.find? (fun f => f.path = info.path) with
  | some ex =>
    have hmem := List.mem_of_find?_eq_some hf
    have hpath : ex.path = info.path := by simpa using List.find?_some hf
    exact ⟨_, List.mem_map_of_mem _ hmem, by simp [hpath]⟩
  | none =>
    refine ⟨⟨db.nextId, info.path, info.filename, info.extension,
      info.fileType, info.size, info.modifiedTime, info.createdTime,
      info.contentText, none, none⟩, ?_, rfl⟩
    exact List.mem_append_right _ (List.mem_singleton_self _)

/-! ### Claim C5 — delete does not cascade metadata -/

/-- C5's cascade is the bug: deleting file 1 from `dbMeta` removes the
`files` row and the `files_fts` row, but the `metadata` row referencing
file 1 survives, because the connection never runs
`PRAGMA foreign_keys = ON` and SQLite leaves `ON DELETE CASCADE` inert by
default. -/
theorem C5_metadata_not_cascaded :
    (deleteFile dbMeta 1).files = [] ∧ (deleteFile dbMeta 1).fts = [] ∧
      (deleteFile dbMeta 1).metadata = [⟨1, "k", "v"⟩] := by
  decide

/-! ### Claim C6 — incremental skip -/

/-- C6: when a record already exists for the candidate's path and its stored
modified-time is greater or equal, `_index_file` — and `update_single_file`
on an existing supported path — performs no extraction call and no Store
write, and leaves the database unchanged. -/
theorem C6_incremental_skip (db : DB) (extract : String → String)
    (info : FileInfo) (ex : FileRec)
    (hex : getFileByPath db info.path = some ex)
    (hm : ex.modifiedTime ≥ info.modifiedTime) :
    indexFile db extract info = (db, 0, 0) ∧
      updateSingleFile db true true extract info = (db, 0, 0) := by
  have h1 : indexFile db extract info = (db, 0, 0) := by
    unfold indexFile
    rw [hex]
    simp [hm]
  exact ⟨h1, by unfold updateSingleFile; simp [h1]⟩

/-- Witness for C6 at a concrete input: `dbOne` stores `fDoc` (modified-time
5) and the re-scan candidate `infoDocOld` reports modified-time 3. -/
theorem C6_incremental_skip_witness :
    indexFile dbOne (fun _ => "text") infoDocOld = (dbOne, 0, 0) ∧
      updateSingleFile dbOne true true (fun _ => "text") infoDocOld =
        (dbOne, 0, 0) :=
  C6_incremental_skip dbOne (fun _ => "text") infoDocOld fDoc (by decide)
    (by decide)

/-! ### Claim C9 — path uniqueness is preserved -/

/-- Mapping a path-preserving row update across the table leaves the list of
paths unchanged. -/
lemma map_path_update (files : List FileRec) (g : FileRec → FileRec)
    (hg : ∀ f, (g f).path = f.path) :
    (files.map g).map FileRec.path = files.map FileRec.path := by
  rw [List.map_map]
  exact List.map_congr_left fun f _ => hg f

/-- C9: every mutating Store operation preserves path uniqueness; in
particular `insert_file` updates in place when the path already exists and
inserts a fresh row only when it does not. -/
theorem C9_path_unique (db : DB) (info : FileInfo) (fid : Nat) (tid : Int)
    (emb : Option String) (h : pathsUnique db) :
    pathsUnique (insertFile db info).1 ∧ pathsUnique (deleteFile db fid) ∧
      pathsUnique (updateFileTopic db fid tid emb) ∧
      pathsUnique (clearAllData db) := by
  unfold pathsUnique at h
  refine ⟨?_, ?_, ?_, ?_⟩
  · cases hf : db.files.find? (fun f => f.path = info.path) with
    | some ex =>
      have red : (insertFile db info).1.files = db.files.map fun f =>
          if f.id = ex.id then
            { f with
              filename := info.filename
              extension := info.extension
              fileType := info.fileType
              size := info.size
              modifiedTime := info.modifiedTime
              createdTime := info.createdTime
              contentText := info.contentText }
          else f := by
        unfold insertFile
        rw [hf]
      unfold pathsUnique
      rw [red, map_path_update]
      · exact h
      · intro f
        by_cases hid : f.id = ex.id <;> simp [hid]
    | none =>
      have red : (insertFile db info).1.files = db.files ++
          [⟨db.nextId, info.path, info.filename, info.extension,
            info.fileType, info.size, info.modifiedTime, info.createdTime,
            info.contentText, none, none⟩] := by
        unfold insertFile
        rw [hf]
      have hnotin : info.path ∉ db.files.map FileRec.path := by
        intro hmem
        rcases List.mem_map.mp hmem with ⟨f, hfm, hfp⟩
        have := List.find?_eq_none.mp hf f hfm
        simp [hfp] at this
      unfold pathsUnique
      rw [red]
      simp [List.nodup_append, h, hnotin]
  · exact h.sublist ((List.filter_sublist _).map _)
  · unfold pathsUnique updateFileTopic
    simp only
    rw [map_path_update]
    · exact h
    · intro f
      by_cases hid : f.id = fid <;> simp [hid]
  · simp [pathsUnique, clearAllData]

/-- Witness for C9 at a concrete input: the one-record store `dbOne`. -/
theorem C9_path_unique_witness :
    pathsUnique (insertFile dbOne infoEmptyPath).1 ∧
      pathsUnique (deleteFile dbOne 1) ∧
      pathsUnique (updateFileTopic dbOne 1 0 none) ∧
      pathsUnique (clearAllData dbOne) :=
  C9_path_unique dbOne infoEmptyPath 1 0 none
    (show (dbOne.files.map FileRec.path).Nodup by decide)

/-! ### Claim C1 — fusion score bounds -/

/-- Every element of an updated dictionary is either an original entry or an
original entry with its value rewritten by `g`. -/
lemma updateEntry_mem (key : String) (g : CEntry → CEntry) :
    ∀ (acc : List (String × CEntry)) (p : String × CEntry),
      p ∈ updateEntry key g acc →
        p ∈ acc ∨ ∃ q ∈ acc, p = (q.1, g q.2)
  | [], p, hp => by cases hp
  | q :: rest, p, hp => by
    unfold updateEntry at hp
    split at hp
    · rcases List.mem_cons.mp hp with rfl | hrest
      · exact Or.inr ⟨q, List.mem_cons_self q rest, rfl⟩
      · exact Or.inl (List.mem_cons_of_mem _ hrest)
    · rcases List.mem_cons.mp hp with rfl | hrest
      · exact Or.inl (List.mem_cons_self _ _)
      · rcases updateEntry_mem key g rest p hrest with h | ⟨r, hr, hpr⟩
        · exact Or.inl (List.mem_cons_of_mem _ h)
        · exact Or.inr ⟨r, List.mem_cons_of_mem _ hr, hpr⟩

/-- `addKeyword` keeps every dictionary value's scores non-negative when the
incoming keyword score is non-negative. -/
lemma addKeyword_inv (acc : List (String × CEntry)) (fs : FileRec × ℚ)
    (hacc : ∀ p ∈ acc, 0 ≤ p.2.kwScore ∧ 0 ≤ p.2.semScore)
    (hs : 0 ≤ fs.2) :
    ∀ p ∈ addKeyword acc fs, 0 ≤ p.2.kwScore ∧ 0 ≤ p.2.semScore := by
  intro p hp
  unfold addKeyword at hp
  have hacc1 : ∀ p ∈ (if hasKey fs.1.path acc then acc
      else acc ++ [(fs.1.path, ⟨fs.1, 0, 0⟩)]),
      0 ≤ p.2.kwScore ∧ 0 ≤ p.2.semScore := by
    split
    · exact hacc
    · intro p hp
      rcases List.mem_append.mp hp with h | h
      · exact hacc p h
      · rcases List.mem_singleton.mp h with rfl
        exact ⟨le_refl 0, le_refl 0⟩
  rcases updateEntry_mem _ _ _ _ hp with h | ⟨q, hq, rfl⟩
  · exact hacc1 p h
  · exact ⟨hs, (hacc1 q hq).2⟩

/-- `addSemantic` keeps every dictionary value's scores non-negative when the
incoming semantic score is non-negative. -/
lemma addSemantic_inv (acc : List (String × CEntry)) (fs : FileRec × ℚ)
    (hacc : ∀ p ∈ acc, 0 ≤ p.2.kwScore ∧ 0 ≤ p.2.semScore)
    (hs : 0 ≤ fs.2) :
    ∀ p ∈ addSemantic acc fs, 0 ≤ p.2.kwScore ∧ 0 ≤ p.2.semScore := by
  intro p hp
  unfold addSemantic at hp
  have hacc1 : ∀ p ∈ (if hasKey fs.1.path acc then acc
      else acc ++ [(fs.1.path, ⟨fs.1, 0, 0⟩)]),
      0 ≤ p.2.kwScore ∧ 0 ≤ p.2.semScore := by
    split
    · exact hacc
    · intro p hp
      rcases List.mem_append.mp hp with h | h
      · exact hacc p h
      · rcases List.mem_singleton.mp h with rfl
        exact ⟨le_refl 0, le_refl 0⟩
  rcases updateEntry_mem _ _ _ _ hp with h | ⟨q, hq, rfl⟩
  · exact hacc1 p h
  · exact ⟨(hacc1 q hq).1, hs⟩

/-- Folding the keyword loop over candidates with non-negative scores
preserves non-negativity of all dictionary values. -/
lemma foldl_addKeyword_inv (l : List (FileRec × ℚ)) :
    ∀ acc, (∀ x ∈ l, 0 ≤ x.2) →
      (∀ p ∈ acc, 0 ≤ p.2.kwScore ∧ 0 ≤ p.2.semScore) →
      ∀ p ∈ l.foldl addKeyword acc,
        0 ≤ p.2.kwScore ∧ 0 ≤ p.2.semScore := by
  induction l with
  | nil =>
    intro acc _ hacc
    simpa using hacc
  | cons x t ih =>
    intro acc hl hacc
    simp only [List.foldl_cons]
    exact ih _ (fun y hy => hl y (List.mem_cons_of_mem _ hy))
      (addKeyword_inv acc x hacc (hl x (List.mem_cons_self _ _)))

/-- Folding the semantic loop over candidates with non-negative scores
preserves non-negativity of all dictionary values. -/
lemma foldl_addSemantic_inv (l : List (FileRec × ℚ)) :
    ∀ acc, (∀ x ∈ l, 0 ≤ x.2) →
      (∀ p ∈ acc, 0 ≤ p.2.kwScore ∧ 0 ≤ p.2.semScore) →
      ∀ p ∈ l.foldl addSemantic acc,
        0 ≤ p.2.kwScore ∧ 0 ≤ p.2.semScore := by
  induction l with
  | nil =>
    intro acc _ hacc
    simpa using hacc
  | cons x t ih =>
    intro acc hl hacc
    simp only [List.foldl_cons]
    exact ih _ (fun y hy => hl y (List.mem_cons_of_mem _ hy))
      (addSemantic_inv acc x hacc (hl x (List.mem_cons_self _ _)))

/-- The fused score of every record `_combine_results` emits lies in `[0, 1]`
provided all incoming per-candidate scores are non-negative and the two live
weights are non-negative with sum at most 1.  (The upper clamp `min(·, 1.0)`
alone yields the upper bound; the lower bound needs the non-negativity
hypothesis because the code never clamps from below.) -/
lemma combineResults_bounds (kwRes semRes : List (FileRec × ℚ))
    (kwW semW mdW : ℚ)
    (hkw : ∀ x ∈ kwRes, 0 ≤ x.2) (hsem : ∀ x ∈ semRes, 0 ≤ x.2)
    (hkwW : 0 ≤ kwW) (hsemW : 0 ≤ semW) (hsum : kwW + semW ≤ 1) :
    ∀ q ∈ combineResults kwRes semRes kwW semW mdW,
      0 ≤ q.2 ∧ q.2 ≤ 1 := by
  intro q hq
  unfold combineResults at hq
  rw [List.mem_insertionSort] at hq
  rcases List.mem_map.mp hq with ⟨p, hp, rfl⟩
  have hinv : 0 ≤ p.2.kwScore ∧ 0 ≤ p.2.semScore :=
    foldl_addSemantic_inv semRes _ hsem
      (foldl_addKeyword_inv kwRes [] hkw (by intro p hp; cases hp)) p hp
  have hk1 : 0 ≤ min p.2.kwScore 1 := le_min hinv.1 (by norm_num)
  have hk2 : min p.2.kwScore 1 ≤ 1 := min_le_right _ _
  have hs1 : 0 ≤ min p.2.semScore 1 := le_min hinv.2 (by norm_num)
  have hs2 : min p.2.semScore 1 ≤ 1 := min_le_right _ _
  have hmk : kwW * min p.2.kwScore 1 ≤ kwW := by
    calc kwW * min p.2.kwScore 1 ≤ kwW * 1 :=
      mul_le_mul_of_nonneg_left hk2 hkwW
    _ = kwW := mul_one kwW
  have hms : semW * min p.2.semScore 1 ≤ semW := by
    calc semW * min p.2.semScore 1 ≤ semW * 1 :=
      mul_le_mul_of_nonneg_left hs2 hsemW
    _ = semW := mul_one semW
  have h1 : 0 ≤ kwW * min p.2.kwScore 1 := mul_nonneg hkwW hk1
  have h2 : 0 ≤ semW * min p.2.semScore 1 := mul_nonneg hsemW hs1
  constructor
  · simp only [mul_zero, add_zero]
    linarith
  · simp only [mul_zero, add_zero]
    linarith

/-- The lexical score of `_keyword_search` is never negative: both the
filename bonus and the capped content bonus are non-negative. -/
lemma keywordScore_nonneg (query : String) (f : FileRec) :
    0 ≤ keywordScore query f := by
  unfold keywordScore
  have hmin : (0:ℚ) ≤
      min ((countNonOverlap (pyLower query) (pyLower f.contentText) : ℚ) /
        ((max (pyWordCount f.contentText) 1 : ℕ) : ℚ) * 100) ((1:ℚ)/2) :=
    le_min (by positivity) (by norm_num)
  split <;> split <;> (try exact le_refl 0) <;> linarith [hmin]

/-- Every score `_keyword_search` returns is non-negative. -/
lemma keywordSearch_scores (db : DB) (engine : List (Nat × ℚ))
    (query : String) (lim : Nat) (kwRes : List (FileRec × ℚ))
    (h : keywordSearch db engine query lim = Except.ok kwRes) :
    ∀ x ∈ kwRes, 0 ≤ x.2 := by
  unfold keywordSearch at h
  cases hs : searchFilesByKeyword db engine query lim with
  | error e =>
    rw [hs] at h
    simp [Except.map] at h
  | ok rows =>
    rw [hs] at h
    simp only [Except.map] at h
    injection h with h'
    subst h'
    intro x hx
    rw [List.mem_insertionSort] at hx
    rcases List.mem_map.mp hx with ⟨f, hf, rfl⟩
    exact keywordScore_nonneg query f

/-- When the provider only ever returns non-negative similarities, every
score `_semantic_search` emits is non-negative. -/
lemma semanticSearch_nonneg (db : DB) (provider : Provider) (query : String)
    (lim : Nat)
    (hp : ∀ docs, provider query lim = Except.ok docs →
      ∀ d ∈ docs, 0 ≤ d.2) :
    ∀ x ∈ semanticSearch db provider query lim, 0 ≤ x.2 := by
  intro x hx
  unfold semanticSearch at hx
  cases hq : provider query lim with
  | error e =>
    rw [hq] at hx
    cases hx
  | ok docs =>
    rw [hq] at hx
    rcases List.mem_filterMap.mp hx with ⟨d, hd, hf⟩
    rcases Option.map_eq_some'.mp hf with ⟨g, hg, rfl⟩
    exact hp docs hq d hd

/-- C1 amended: the fused scores `search` returns all lie in `[0, 1]`
whenever every similarity the attached provider returns is non-negative (the
lexical scores are non-negative by construction).  The code upper-clamps each
signal with `min(·, 1.0)` but never clamps from below, so the restriction to
non-negative inputs is necessary — see the counterexample. -/
theorem C1_fusion_bound (db : DB) (engine : List (Nat × ℚ))
    (tm : Option Provider) (query : String) (maxResults : Nat)
    (useSemantic : Bool) (out : List (FileRec × ℚ))
    (hprov : ∀ p, tm = some p → ∀ docs,
      p query (maxResults * 2) = Except.ok docs → ∀ d ∈ docs, 0 ≤ d.2)
    (h : search db engine tm query maxResults useSemantic = Except.ok out) :
    ∀ q ∈ out, 0 ≤ q.2 ∧ q.2 ≤ 1 := by
  unfold search at h
  split at h
  · injection h with h'
    subst h'
    intro q hq
    cases hq
  · cases hkw : keywordSearch db engine query (maxResults * 2) with
    | error e =>
      rw [hkw] at h
      cases h
    | ok kwRes =>
      rw [hkw] at h
      simp only at h
      injection h with h'
      subst h'
      intro q hq
      have hq' := List.take_subset _ _ hq
      refine combineResults_bounds kwRes _ _ _ _
        (keywordSearch_scores db engine query _ kwRes hkw) ?_ (by norm_num)
        ?_ ?_ q hq'
      · intro x hx
        cases useSemantic with
        | false => simp at hx
        | true =>
          cases tm with
          | none => simp at hx
          | some p =>
            simp only [if_true] at hx
            exact semanticSearch_nonneg db p query _ (hprov p rfl) x
              (by simpa using hx)
      · cases useSemantic <;> norm_num
      · cases useSemantic <;> norm_num

/-- Witness for C1's amended bound on the concrete tied run: the first
returned pair's score 1/5 lies in the unit interval. -/
theorem C1_fusion_bound_witness :
    0 ≤ ((fXb, (1:ℚ)/5) : FileRec × ℚ).2 ∧
      ((fXb, (1:ℚ)/5) : FileRec × ℚ).2 ≤ 1 :=
  C1_fusion_bound dbTwo engineTie none "x" 10 false _
    (fun p hp => by cases hp) eval_search_tie (fXb, 1/5)
    (List.mem_cons_self _ _)

/-- Concrete run of `search` with a provider returning cosine similarity −1:
the keyword side matches nothing, the semantic candidate's score passes the
upper clamp `min(−1, 1.0) = −1` untouched, and the fused score is
0.5 × (−1) = −1/2. -/
lemma eval_search_neg :
    search dbOne [] (some provNeg) "q" 10 true = .ok [(fDoc, -(1/2))] := by
  have hm0 : min (0:ℚ) 1 = 0 := min_eq_left (by norm_num)
  have hm1 : min (-1:ℚ) 1 = -1 := min_eq_left (by norm_num)
  have hkw : keywordSearch dbOne [] "q" (10 * 2) = .ok [] := rfl
  have hsem : semanticSearch dbOne provNeg "q" (10 * 2) = [(fDoc, -1)] := rfl
  unfold search
  rw [if_neg (by decide)]
  rw [hkw]
  simp only [hsem]
  norm_num [combineResults, addKeyword, addSemantic, hasKey, updateEntry,
    List.foldl, List.map, List.any, List.insertionSort, List.orderedInsert,
    List.take, hm0, hm1]

/-- C1, as stated, is false: for the (perfectly possible) provider
similarity −1 the final fused score `search` returns is −1/2, outside
`[0, 1]` — the code's `min(·, 1.0)` clamps only from above. -/
theorem C1_counterexample :
    search dbOne [] (some provNeg) "q" 10 true = .ok [(fDoc, -(1/2))] ∧
      (-(1/2) : ℚ) < 0 :=
  ⟨eval_search_neg, by norm_num⟩

/-! ### Claim C2 — full-text result ordering -/

/-- When the engine's matched rowids are distinct, `rankOf` recovers each
match's rank. -/
lemma rankOf_mem (engine : List (Nat × ℚ))
    (hnd : (engine.map Prod.fst).Nodup) (e : Nat × ℚ) (he : e ∈ engine) :
    rankOf engine e.1 = e.2 := by
  induction engine with
  | nil => cases he
  | cons p t ih =>
    rw [List.map_cons, List.nodup_cons] at hnd
    obtain ⟨hp, ht⟩ := hnd
    rcases List.mem_cons.mp he with rfl | hmem
    · unfold rankOf
      rw [List.find?_cons_of_pos _ (by simp)]
      rfl
    · have hne : ¬ p.1 = e.1 := by
        intro hpe
        exact hp (by rw [hpe]; exact List.mem_map_of_mem Prod.fst hmem)
      unfold rankOf
      rw [List.find?_cons_of_neg _ (by simp [hne])]
      simpa [rankOf] using ih ht hmem

/-- A found file carries the id it was looked up under. -/
lemma getFileById_id (db : DB) (k : Nat) (f : FileRec)
    (h : getFileById db k = some f) : f.id = k := by
  simpa using List.find?_some h

/-- C2 amended: `search_files_by_keyword` orders its output by the engine's
rank alone (`ORDER BY rank`, no secondary key): ranks are non-decreasing
along the returned list, but equal-rank records stay in engine order — there
is no id-ascending tie-break. -/
theorem C2_rank_order (db : DB) (engine : List (Nat × ℚ)) (kw : String)
    (lim : Nat) (out : List FileRec)
    (hnd : (engine.map Prod.fst).Nodup)
    (h : searchFilesByKeyword db engine kw lim = Except.ok out) :
    out.Pairwise fun a b => rankOf engine a.id ≤ rankOf engine b.id := by
  unfold searchFilesByKeyword at h
  split at h
  · injection h with h'
    subst h'
    have hsorted : (List.insertionSort rankAsc engine).Pairwise rankAsc :=
      List.sorted_insertionSort rankAsc engine
    have himp : (List.insertionSort rankAsc engine).Pairwise
        fun a b => rankOf engine a.1 ≤ rankOf engine b.1 := by
      refine hsorted.imp_of_mem ?_
      intro a b ha hb hr
      rw [rankOf_mem engine hnd a ((List.mem_insertionSort rankAsc).mp ha),
        rankOf_mem engine hnd b ((List.mem_insertionSort rankAsc).mp hb)]
      exact hr
    have hfm : ((List.insertionSort rankAsc engine).filterMap
        fun e => getFileById db e.1).Pairwise
          fun a b => rankOf engine a.id ≤ rankOf engine b.id := by
      refine himp.filterMap _ ?_
      intro a a' hr b hb b' hb'
      rw [getFileById_id db a.1 b (Option.mem_def.mp hb),
        getFileById_id db a'.1 b' (Option.mem_def.mp hb')]
      exact hr
    exact hfm.sublist (List.take_sublist _ _)
  · cases h

/-- Witness for C2's amended ordering theorem at the tied engine answer. -/
theorem C2_rank_order_witness :
    List.Pairwise
      (fun a b : FileRec => rankOf engineTie a.id ≤ rankOf engineTie b.id)
      [fXb, fXa] :=
  C2_rank_order dbTwo engineTie "x" 10 [fXb, fXa] (by decide) rfl

/-- C2, as stated, is false: with two records matching at equal rank and the
engine delivering rowid 2 before rowid 1, `search_files_by_keyword` returns
the records in that engine order — id 2 before id 1 — so equal-relevance
ties are not broken by id ascending. -/
theorem C2_counterexample :
    searchFilesByKeyword dbTwo engineTie "x" 10 = .ok [fXb, fXa] ∧
      rankOf engineTie fXb.id = rankOf engineTie fXa.id ∧
      fXa.id < fXb.id :=
  ⟨rfl, by decide, by decide⟩

/-! ### Claim C3 — search output ordering and truncation -/

/-- C3 amended: the fused result list is sorted by final score descending
(equal scores keep the stable sort's candidate order, not id order) and is
truncated to at most `max_results` entries. -/
theorem C3_sorted_truncated (db : DB) (engine : List (Nat × ℚ))
    (tm : Option Provider) (query : String) (maxResults : Nat)
    (useSemantic : Bool) (out : List (FileRec × ℚ))
    (h : search db engine tm query maxResults useSemantic = Except.ok out) :
    out.Pairwise scoreDesc ∧ out.length ≤ maxResults := by
  unfold search at h
  split at h
  · injection h with h'
    subst h'
    simp
  · cases hkw : keywordSearch db engine query (maxResults * 2) with
    | error e =>
      rw [hkw] at h
      cases h
    | ok kwRes =>
      rw [hkw] at h
      simp only at h
      injection h with h'
      subst h'
      constructor
      · have hp : (combineResults kwRes
            (if useSemantic then
              match tm with
              | some provider =>
                semanticSearch db provider query (maxResults * 2)
              | none => []
            else [])
            (0.4 : ℚ) (if useSemantic then (0.5 : ℚ) else 0)
            (0.1 : ℚ)).Pairwise scoreDesc := by
          unfold combineResults
          exact List.sorted_insertionSort scoreDesc _
        exact hp.sublist (List.take_sublist _ _)
      · rw [List.length_take]
        exact min_le_left _ _

/-- Witness for C3's amended theorem on the concrete tied run. -/
theorem C3_sorted_truncated_witness :
    List.Pairwise scoreDesc [(fXb, (1:ℚ)/5), (fXa, 1/5)] ∧
      ([(fXb, (1:ℚ)/5), (fXa, 1/5)]).length ≤ 10 :=
  C3_sorted_truncated dbTwo engineTie none "x" 10 false _ eval_search_tie

/-- C3, as stated, is false: on `dbTwo` with the tied engine answer both
records receive the same final score 1/5, yet the returned order is id 2
before id 1 — the tie is left in candidate order, not broken by Store id
ascending. -/
theorem C3_counterexample :
    search dbTwo engineTie none "x" 10 false =
        .ok [(fXb, 1/5), (fXa, 1/5)] ∧
      fXb.id = 2 ∧ fXa.id = 1 :=
  ⟨eval_search_tie, rfl, rfl⟩

/-! ### Claim C7 — the lexical scoring formula -/

/-- C7: for a non-empty query the lexical score is the filename-substring
bonus (0.5 when the lowered query occurs in the lowered filename) plus the
capped, length-normalised content-frequency bonus
`min(0.5, count / max(word_count, 1) × 100)`. -/
theorem C7_keyword_score (query : String) (f : FileRec) (hq : query ≠ "") :
    keywordScore query f =
      (if containsSub (pyLower query) (pyLower f.filename) then (1:ℚ)/2
        else 0) +
        min ((1:ℚ)/2)
          ((countNonOverlap (pyLower query) (pyLower f.contentText) : ℚ) /
            ((max (pyWordCount f.contentText) 1 : ℕ) : ℚ) * 100) := by
  have hqnil : query.toList ≠ [] := by
    intro hnil
    exact hq (String.ext (by simpa using hnil))
  have hql : (pyLower query).isEmpty = false := by
    simp only [pyLower, List.isEmpty_eq_false, ne_eq, List.map_eq_nil_iff]
    exact hqnil
  unfold keywordScore
  by_cases hc : f.contentText.toList.isEmpty
  · have hnil : f.contentText.toList = [] := by simpa using hc
    have hcount :
        countNonOverlap (pyLower query) (pyLower f.contentText) = 0 := by
      have hpl : pyLower f.contentText = [] := by
        unfold pyLower
        rw [hnil]
        rfl
      rw [hpl]
      unfold countNonOverlap
      simp [hql]
    simp only [hc, if_true]
    rw [hcount]
    norm_num
  · simp [hc, min_comm]
    intro hd
    exact absurd hd (by simpa using hc)

/-- Witness for C7 at the stored record `fDoc` and query `beta`. -/
theorem C7_keyword_score_witness :
    keywordScore "beta" fDoc =
      (if containsSub (pyLower "beta") (pyLower fDoc.filename) then (1:ℚ)/2
        else 0) +
        min ((1:ℚ)/2)
          ((countNonOverlap (pyLower "beta") (pyLower fDoc.contentText) : ℚ) /
            ((max (pyWordCount fDoc.contentText) 1 : ℕ) : ℚ) * 100) :=
  C7_keyword_score "beta" fDoc (by decide)

/-! ### Claim C8 — provider failure degrades to lexical-only -/

/-- C8: when the attached provider raises, `search` returns exactly what it
returns with a provider that yields the empty candidate set, and — whenever
the lexical side accepts the query — it still returns a result list rather
than propagating the provider's exception. -/
theorem C8_provider_failure (db : DB) (engine : List (Nat × ℚ))
    (provider : Provider) (query : String) (maxResults : Nat) (e : String)
    (hfail : provider query (maxResults * 2) = Except.error e) :
    search db engine (some provider) query maxResults true =
        search db engine (some fun _ _ => Except.ok []) query maxResults
          true ∧
      (fts5QueryValid query = true →
        ∃ out, search db engine (some provider) query maxResults true =
          Except.ok out) := by
  have hsem : semanticSearch db provider query (maxResults * 2) = [] := by
    unfold semanticSearch
    rw [hfail]
  constructor
  · unfold search
    split
    · rfl
    · cases hkw : keywordSearch db engine query (maxResults * 2) with
      | error e2 => rfl
      | ok kwRes =>
        simp only [hsem]
        rfl
  · intro hv
    unfold search
    split
    · exact ⟨[], rfl⟩
    · cases hkw : keywordSearch db engine query (maxResults * 2) with
      | error e2 =>
        exfalso
        unfold keywordSearch searchFilesByKeyword at hkw
        simp [hv, Except.map] at hkw
      | ok kwRes =>
        exact ⟨_, rfl⟩

/-- Witness for C8 with the always-raising provider on `dbOne`. -/
theorem C8_provider_failure_witness :
    (search dbOne [] (some provFail) "q" 2 true =
        search dbOne [] (some fun _ _ => Except.ok []) "q" 2 true) ∧
      (fts5QueryValid "q" = true →
        ∃ out, search dbOne [] (some provFail) "q" 2 true = Except.ok out) :=
  C8_provider_failure dbOne [] provFail "q" 2 "model not loaded" rfl

/-! ### Claim C10 — malformed full-text queries raise -/

/-- C10: a query consisting of a single (unbalanced) double quote is rejected
by the full-text engine's query parser, so `search_files_by_keyword` raises
an operational error, and `Searcher.search` — which passes the query
verbatim as the `MATCH` expression — propagates it instead of returning a
result list. -/
theorem C10_query_syntax_error :
    searchFilesByKeyword dbOne [] "\"" 50 = .error "fts5: syntax error" ∧
      search dbOne [] none "\"" 50 true = .error "fts5: syntax error" := by
  constructor
  · rfl
  · rfl

end Somethink
